import Mathlib

/-!
Verification of the personal-finance service core against its specification.

Shallow embedding of `app/auth.py`, `app/routers/analytics.py` and the period
window code shared with `app/routers/external.py`.  Numeric amounts are
modelled as exact rationals, instants as integer epoch seconds, and calendar
dates as year/month/day structures over the proleptic Gregorian calendar.
Python dictionaries that are only ever read by key are modelled as functions
into `Option`; JSON object insertion order is not modelled since no property
here depends on it.
-/

namespace Config

/-- `app/core/config.py` `Settings.secret_key` default. -/
def secret_key : String := "your-secret-key-change-in-production"

/-- `Settings.algorithm` default. -/
def algorithm : String := "HS256"

/-- `Settings.access_token_expire_minutes` default. -/
def access_token_expire_minutes : Int := 30

end Config

namespace Auth

/-- A JWT as handled by the `jose` library, seen through the boundary of this
code base: a structurally well-formed token carries a subject claim (possibly
absent), an expiry claim in epoch seconds, the key it was signed with and the
algorithm named in its header; every other string is `malformed`. -/
inductive Jwt where
  | signed (sub : Option String) (exp : Int) (key : String) (alg : String)
  | malformed
deriving DecidableEq

/-- Decoded claim set. -/
structure Claims where
  sub : Option String
  exp : Int
deriving DecidableEq

/-- `jose.jwt.decode(token, key, algorithms=[alg])` at instant `now`:
signature verification (modelled as the signing key matching), header
algorithm check against the allowed list, and the automatic `exp` validation,
which raises `ExpiredSignatureError` exactly when `exp < now`.  Every
`JWTError` is modelled as `none`. -/
def jwt_decode (t : Jwt) (key : String) (alg : String) (now : Int) : Option Claims :=
  match t with
  | .malformed => none
  | .signed sub exp tkey talg =>
    if tkey = key ∧ talg = alg then
      if exp < now then none else some ⟨sub, exp⟩
    else none

/-- `jose.jwt.encode(claims, key, algorithm=alg)`. -/
def jwt_encode (sub : Option String) (exp : Int) (key : String) (alg : String) : Jwt :=
  .signed sub exp key alg

/-- Python truthiness of an `Optional[timedelta]`: `None` and a zero delta are
both falsy. -/
def timedeltaTruthy : Option Int → Bool
  | none => false
  | some d => decide (d ≠ 0)

/-- `auth.create_access_token` for `data = {"sub": sub}`, with
`expires_delta` in seconds and `now = datetime.utcnow()` in epoch seconds.
The source guards on `if expires_delta:`, i.e. on truthiness, so a zero
delta falls back to the configured default expiry. -/
def create_access_token (sub : String) (expires_delta : Option Int) (now : Int) : Jwt :=
  let expire : Int :=
    if timedeltaTruthy expires_delta then now + expires_delta.getD 0
    else now + 60 * Config.access_token_expire_minutes
  jwt_encode (some sub) expire Config.secret_key Config.algorithm

/-- `auth.verify_token`: decode, then require a `sub` claim; any `JWTError`
and a missing subject both yield `None`. -/
def verify_token (t : Jwt) (now : Int) : Option String :=
  match jwt_decode t Config.secret_key Config.algorithm now with
  | none => none
  | some payload =>
    match payload.sub with
    | none => none
    | some username => some username

/-- An HTTP error response as produced by raising `HTTPException`. -/
structure HTTPErrorResp where
  status_code : Nat
  detail : String
deriving DecidableEq

/-- The 401 `credentials_exception` built in `auth.get_current_user`. -/
def credentials_exception : HTTPErrorResp :=
  ⟨401, "Could not validate credentials"⟩

/-- A `users` table row, restricted to the fields `get_current_user` reads. -/
structure StoredUser where
  username : String
  is_active : Bool
deriving DecidableEq

/-- The body of the `try:` block of `auth.get_current_user`: verify the
token, look the subject up in the store, and reject an inactive user with a
distinct 400 "Inactive user" response. -/
def get_current_user_try (t : Jwt) (db : List StoredUser) (now : Int) :
    Except HTTPErrorResp StoredUser :=
  match verify_token t now with
  | none => .error credentials_exception
  | some username =>
    match db.find? (fun u => u.username == username) with
    | none => .error credentials_exception
    | some user =>
      if user.is_active = false then .error ⟨400, "Inactive user"⟩
      else .ok user

/-- `auth.get_current_user` as a whole: the trailing `except Exception`
clause catches every exception raised in the body — `HTTPException` is a
subclass of `Exception`, so the 400 "Inactive user" response raised inside
the `try:` block is caught as well — and re-raises `credentials_exception`. -/
def get_current_user (t : Jwt) (db : List StoredUser) (now : Int) :
    Except HTTPErrorResp StoredUser :=
  match get_current_user_try t db now with
  | .ok u => .ok u
  | .error _ => .error credentials_exception

end Auth

namespace Analytics

/-- Round a rational to 2 decimal places, as Python's `round(x, 2)`.
Rounding-mode ties differ between Python (half-to-even) and `round`
(half-up) only at exact half-cent values; every property proved below uses
only `|round2 q - q| ≤ 1/200`, which holds for both modes. -/
def round2 (q : ℚ) : ℚ := ((round (q * 100) : ℤ) : ℚ) / 100

/-- The upstream rate service's reply, as read by `convert_currency`: the
HTTP status and, when the body is consulted, its "rates" table and "date". -/
structure RatesResponse where
  status_code : Nat
  rates : List (String × ℚ)
  date : Option String

/-- Python's `str.upper()`, character-wise (the inputs here are 3-letter
ASCII currency codes). -/
def pyUpper (s : String) : String := String.mk (s.data.map Char.toUpper)

/-- The success payload of `analytics.convert_currency`. -/
structure ConversionResult where
  original_amount : ℚ
  original_currency : String
  converted_amount : ℚ
  target_currency : String
  conversion_rate : ℚ
  last_updated : Option String
deriving DecidableEq

/-- The body of the `try:` block of `analytics.convert_currency`: a non-200
upstream reply raises 503, a target code absent from the rates table raises
400, otherwise the converted amount is computed. -/
def convert_currency_try (amount : ℚ) (from_currency to_currency : String)
    (resp : RatesResponse) : Except Auth.HTTPErrorResp ConversionResult :=
  if resp.status_code ≠ 200 then
    .error ⟨503, "Currency conversion service unavailable"⟩
  else
    match resp.rates.lookup (pyUpper to_currency) with
    | none => .error ⟨400, "Currency " ++ to_currency ++ " not supported"⟩
    | some conversion_rate =>
      .ok ⟨amount, pyUpper from_currency, round2 (amount * conversion_rate),
        pyUpper to_currency, conversion_rate, resp.date⟩

/-- `analytics.convert_currency` as a whole: the trailing `except Exception`
catches every exception from the body — including the `HTTPException`s
carrying 503 and 400 — and raises a generic 500 instead. -/
def convert_currency (amount : ℚ) (from_currency to_currency : String)
    (resp : RatesResponse) : Except Auth.HTTPErrorResp ConversionResult :=
  match convert_currency_try amount from_currency to_currency resp with
  | .ok r => .ok r
  | .error _ => .error ⟨500, "Internal server error"⟩

end Analytics

namespace Cal

/-- Gregorian leap-year test, as `calendar.isleap` / `datetime` use it. -/
def isLeap (y : Nat) : Bool := (y % 4 == 0 && y % 100 != 0) || y % 400 == 0

/-- Length of month `m` of year `y`. -/
def monthLen (y m : Nat) : Nat :=
  if m = 2 then (if isLeap y then 29 else 28)
  else if m = 4 ∨ m = 6 ∨ m = 9 ∨ m = 11 then 30
  else 31

/-- A calendar date, as `datetime.date`. -/
structure Date where
  year : Nat
  month : Nat
  day : Nat
deriving DecidableEq

/-- The validity range `datetime.date` enforces (year ≥ 1, real month/day). -/
def Date.valid (d : Date) : Prop :=
  1 ≤ d.year ∧ 1 ≤ d.month ∧ d.month ≤ 12 ∧ 1 ≤ d.day ∧ d.day ≤ monthLen d.year d.month

instance : DecidablePred Date.valid := fun d => by
  unfold Date.valid; infer_instance

/-- Days in year `y` strictly before month `m`. -/
def daysBeforeMonth (y : Nat) : Nat → Nat
  | 0 => 0
  | 1 => 0
  | m + 1 => daysBeforeMonth y m + monthLen y m

/-- Days strictly before January 1 of year `y` in the proleptic Gregorian
calendar (Rata Die day 0 convention: 0001-01-01 is day 1). -/
def daysBeforeYear (y : Nat) : Nat :=
  365 * (y - 1) + (y - 1) / 4 - (y - 1) / 100 + (y - 1) / 400

/-- Rata Die day number: `toRD ⟨1, 1, 1⟩ = 1`, matching
`datetime.date.toordinal`. -/
def toRD (d : Date) : Nat := daysBeforeYear d.year + daysBeforeMonth d.year d.month + d.day

/-- `datetime.date.weekday`: Monday = 0 … Sunday = 6.  0001-01-01 (Rata Die
day 1) is a Monday in the proleptic Gregorian calendar. -/
def weekday (d : Date) : Nat := (toRD d - 1) % 7

/-- Ordinal day of the year, 1-based. -/
def dayOfYear (d : Date) : Nat := daysBeforeMonth d.year d.month + d.day

/-- Number of ISO weeks (52 or 53) in year `y`. -/
def isoWeeksInYear (y : Nat) : Nat :=
  let p := fun (z : Nat) => (z + z / 4 - z / 100 + z / 400) % 7
  if p y = 4 ∨ p (y - 1) = 3 then 53 else 52

/-- The ISO week number `datetime.date.isocalendar()[1]` of a date. -/
def isoWeek (d : Date) : Nat :=
  let dow := weekday d + 1
  let w := (dayOfYear d + 10 - dow) / 7
  if w < 1 then isoWeeksInYear (d.year - 1)
  else if isoWeeksInYear d.year < w then 1
  else w

/-- The ISO week-numbering year `datetime.date.isocalendar()[0]` of a date:
dates in the first days of January may belong to the previous ISO year, and
dates in the last days of December to the next. -/
def isoWeekYear (d : Date) : Nat :=
  let dow := weekday d + 1
  let w := (dayOfYear d + 10 - dow) / 7
  if w < 1 then d.year - 1
  else if isoWeeksInYear d.year < w then d.year + 1
  else d.year

/-- The calendar day before `d`. -/
def prevDay (d : Date) : Date :=
  if 1 < d.day then ⟨d.year, d.month, d.day - 1⟩
  else if 1 < d.month then ⟨d.year, d.month - 1, monthLen d.year (d.month - 1)⟩
  else ⟨d.year - 1, 12, 31⟩

/-- `d - timedelta(days := n)` on the date component. -/
def subDays (d : Date) : Nat → Date
  | 0 => d
  | n + 1 => prevDay (subDays d n)

/-- A wall-clock instant, as `datetime.datetime`. -/
structure DateTime where
  date : Date
  hour : Nat
  minute : Nat
  second : Nat
  microsecond : Nat
deriving DecidableEq

/-- `dt.replace(hour=0, minute=0, second=0, microsecond=0)`. -/
def midnight (d : Date) : DateTime := ⟨d, 0, 0, 0, 0⟩

/-- The period-window start computed identically in
`analytics.get_category_breakdown` and `external.get_transaction_summary`:
`day` keeps the date and zeroes the time; `week` subtracts
`now.weekday()` days and zeroes the time (subtracting whole days never
changes the time of day); `month` replaces the day with 1; anything else —
the router regex admits only `year` — replaces month and day with 1. -/
def start_date_for_period (period : String) (now : DateTime) : DateTime :=
  if period = "day" then midnight now.date
  else if period = "week" then midnight (subDays now.date (weekday now.date))
  else if period = "month" then midnight ⟨now.date.year, now.date.month, 1⟩
  else midnight ⟨now.date.year, 1, 1⟩

end Cal

namespace Transform

/-- One decimal digit. -/
def parseDigit (c : Char) : Option Nat :=
  if c.isDigit then some (c.toNat - 48) else none

/-- Two decimal digits. -/
def parse2 (a b : Char) : Option Nat :=
  match parseDigit a, parseDigit b with
  | some x, some y => some (10 * x + y)
  | _, _ => none

/-- Four decimal digits. -/
def parse4 (a b c d : Char) : Option Nat :=
  match parseDigit a, parseDigit b, parseDigit c, parseDigit d with
  | some w, some x, some y, some z => some (1000 * w + 100 * x + 10 * y + z)
  | _, _, _, _ => none

/-- Validity of the optional time-of-day part of an ISO datetime string:
empty, or a `T`/space separator followed by `HH:MM:SS`, optionally with a
`+00:00` offset (the form produced by the source's `replace("Z", "+00:00")`).
This restricts `datetime.fromisoformat`'s grammar to the forms exercised
here; no property below depends on the wider grammar. -/
def validTimePart : List Char → Bool
  | [] => true
  | sep :: h1 :: h2 :: ':' :: n1 :: n2 :: ':' :: s1 :: s2 :: rest =>
    (sep == 'T' || sep == ' ') &&
    (match parse2 h1 h2, parse2 n1 n2, parse2 s1 s2 with
     | some h, some n, some s => decide (h < 24) && decide (n < 60) && decide (s < 60)
     | _, _, _ => false) &&
    (rest == [] || rest == ['+', '0', '0', ':', '0', '0'])
  | _ => false

/-- `datetime.fromisoformat` restricted to its date component: a
`YYYY-MM-DD` head denoting a real calendar date (year ≥ 1), followed by a
valid time part.  Anything else raises `ValueError`, modelled as `none`. -/
def parseDateChars : List Char → Option Cal.Date
  | y1 :: y2 :: y3 :: y4 :: '-' :: m1 :: m2 :: '-' :: d1 :: d2 :: rest =>
    match parse4 y1 y2 y3 y4, parse2 m1 m2, parse2 d1 d2 with
    | some y, some m, some d =>
      if (⟨y, m, d⟩ : Cal.Date).valid ∧ validTimePart rest = true then
        some ⟨y, m, d⟩
      else none
    | _, _, _ => none
  | _ => none

/-- `str.replace("Z", "+00:00")` applied character-wise. -/
def replaceZ : List Char → List Char
  | [] => []
  | 'Z' :: rest => '+' :: '0' :: '0' :: ':' :: '0' :: '0' :: replaceZ rest
  | c :: rest => c :: replaceZ rest

/-- `datetime.fromisoformat(s.replace("Z", "+00:00"))`, keeping the date. -/
def parseDate (s : String) : Option Cal.Date :=
  parseDateChars (replaceZ s.data)

/-- A caller-supplied "transaction-like" record of the Generic Transform
Engine: a JSON object optionally carrying `amount`, `type`, `category` and
`date` fields.  Field values are modelled at the types the engine reads
them at (`date` as a string; a record whose `date` holds a non-string value
is outside this embedding). -/
structure TRecord where
  amount : Option ℚ
  type : Option String
  category : Option String
  date : Option String
deriving DecidableEq

/-- The result payload of `transform_summarize`. -/
structure Summary where
  total_transactions : Nat
  total_income : ℚ
  total_expenses : ℚ
  net_amount : ℚ
  average_transaction : ℚ
deriving DecidableEq

/-- `analytics.transform_summarize`.  The argument is the `"transactions"`
entry of the input object (`none` when the key is missing, which returns the
structured error payload).  `sum(... for t in transactions if ...)` is the
sum of the mapped values over the filtered list; `t.get("amount", 0)`
defaults a missing amount to 0; the average guards on list truthiness. -/
def transform_summarize (data : Option (List TRecord)) : Except String Summary :=
  match data with
  | none => .error "No transactions data provided"
  | some transactions =>
    let total_income :=
      ((transactions.filter (fun t => t.type == some "income")).map
        (fun t => t.amount.getD 0)).sum
    let total_expenses :=
      ((transactions.filter (fun t => t.type == some "expense")).map
        (fun t => t.amount.getD 0)).sum
    .ok ⟨transactions.length, total_income, total_expenses,
      total_income - total_expenses,
      if transactions.isEmpty then 0
      else (total_income + total_expenses) / (transactions.length : ℚ)⟩

/-- Per-record contribution to `total_income`: a record contributes its
amount (0 when missing) when its `type` is `"income"`, and 0 otherwise —
in particular a record with no `type` contributes 0. -/
def incomeContrib (t : TRecord) : ℚ :=
  if t.type = some "income" then t.amount.getD 0 else 0

/-- Per-record contribution to `total_expenses` in `transform_summarize`. -/
def expenseContrib (t : TRecord) : ℚ :=
  if t.type = some "expense" then t.amount.getD 0 else 0

/-- Decimal digits of a natural number (`str(n)`). -/
def natRepr (n : Nat) : String := Nat.repr n

/-- `strftime("%m")` / `strftime("%d")`: zero-padded to width 2. -/
def pad2 (n : Nat) : String :=
  if n < 10 then "0" ++ natRepr n else natRepr n

/-- `strftime("%Y")`: zero-padded to width 4. -/
def pad4 (n : Nat) : String :=
  if n < 10 then "000" ++ natRepr n
  else if n < 100 then "00" ++ natRepr n
  else if n < 1000 then "0" ++ natRepr n
  else natRepr n

/-- The bucket key `transform_aggregate` computes from a record's parsed
date: `date.strftime("%Y-%m-%d")` for `day`,
`f"{date.year}-W{date.isocalendar()[1]}"` for `week` — note the calendar
year paired with the ISO week number — `date.strftime("%Y-%m")` for
`month`, and `str(date.year)` otherwise. -/
def aggKey (period : String) (d : Cal.Date) : String :=
  if period = "day" then pad4 d.year ++ "-" ++ pad2 d.month ++ "-" ++ pad2 d.day
  else if period = "week" then natRepr d.year ++ "-W" ++ natRepr (Cal.isoWeek d)
  else if period = "month" then pad4 d.year ++ "-" ++ pad2 d.month
  else natRepr d.year

/-- The week bucket key as the specification words it: the ISO-year and
ISO-week of the date.  Stated from the spec sentence for comparison with
`aggKey "week"`, which the source computes from `date.year` instead. -/
def specWeekKey (d : Cal.Date) : String :=
  natRepr (Cal.isoWeekYear d) ++ "-W" ++ natRepr (Cal.isoWeek d)

/-- One bucket of `transform_aggregate`'s result. -/
structure Bucket where
  income : ℚ
  expenses : ℚ
  count : Nat
deriving DecidableEq

/-- The zero bucket a fresh key starts from. -/
def Bucket.zero : Bucket := ⟨0, 0, 0⟩

/-- The parsed date of a record in `transform_aggregate`:
`date_str = t.get("date", "")`, an empty (missing) date string is skipped
via `if not date_str: continue`, and a `ValueError` from
`datetime.fromisoformat` is skipped via `except ValueError: continue`. -/
def recordDate (t : TRecord) : Option Cal.Date :=
  let ds := t.date.getD ""
  if ds = "" then none else parseDate ds

/-- The bucket key a record lands in, when its date is present and parses. -/
def recordKey (period : String) (t : TRecord) : Option String :=
  (recordDate t).map (aggKey period)

/-- Folding one record into a bucket: `t.get("type", "expense")` defaults a
missing type to `"expense"`; income amounts accumulate into `income`, every
other type into `expenses`; the count always increments. -/
def applyRecord (b : Bucket) (t : TRecord) : Bucket :=
  let amount := t.amount.getD 0
  if t.type.getD "expense" = "income" then
    ⟨b.income + amount, b.expenses, b.count + 1⟩
  else
    ⟨b.income, b.expenses + amount, b.count + 1⟩

/-- The loop body of `transform_aggregate`: records whose date is missing or
unparseable leave the dictionary unchanged; otherwise the record's bucket is
created at zero if absent and updated. -/
def aggStep (period : String) (m : String → Option Bucket) (t : TRecord) :
    String → Option Bucket :=
  match recordDate t with
  | none => m
  | some d =>
    let key := aggKey period d
    let b' := applyRecord ((m key).getD Bucket.zero) t
    fun k => if k = key then some b' else m k

/-- The `aggregated` dictionary built by `analytics.transform_aggregate`
from the record list and the `"period"` entry of the input (defaulted to
`"month"` by the caller of this function). -/
def aggregate_buckets (transactions : List TRecord) (period : String) :
    String → Option Bucket :=
  transactions.foldl (aggStep period) (fun _ => none)

/-- `analytics.transform_aggregate`: the structured error payload when the
`"transactions"` key is missing, otherwise the bucket dictionary. -/
def transform_aggregate (data : Option (List TRecord)) (period : String) :
    Except String (String → Option Bucket) :=
  match data with
  | none => .error "No transactions data provided"
  | some transactions => .ok (aggregate_buckets transactions period)

/-- Records of `ts` that land in bucket `k`. -/
def keyHits (period : String) (k : String) (ts : List TRecord) : List TRecord :=
  ts.filter (fun t => recordKey period t == some k)

/-- Per-record income contribution inside `transform_aggregate` (the type
defaults to `"expense"`, unlike `transform_summarize`). -/
def aggIncome (t : TRecord) : ℚ :=
  if t.type.getD "expense" = "income" then t.amount.getD 0 else 0

/-- Per-record expenses contribution inside `transform_aggregate`: every
record whose defaulted type is not `"income"` — including a record with no
`type` at all — adds its amount to `expenses`. -/
def aggExpenses (t : TRecord) : ℚ :=
  if t.type.getD "expense" = "income" then 0 else t.amount.getD 0

end Transform

namespace Analytics

/-- One row of the grouped query in `get_category_breakdown`: a category
(`NULL` allowed), the summed amount and the row count for that category
within the window.  Under the data model, amounts of stored transactions
are positive (`Field(..., gt=0)` on create/update), so group totals are
non-negative; theorems that need this take it as a hypothesis. -/
structure CategoryGroup where
  category : Option String
  total_amount : ℚ
  transaction_count : Nat
deriving DecidableEq

/-- One entry of the `breakdown` list (the cosmetic `color` field is out of
scope per the specification). -/
structure BreakdownEntry where
  category : String
  total_amount : ℚ
  transaction_count : Nat
  percentage : ℚ
deriving DecidableEq

/-- The transformation applied to each group row: the category defaults to
`"Uncategorized"`, and the percentage is `total / total_expenses * 100`
when `total_expenses > 0`, else 0, rounded to 2 decimals only after the
quotient is computed. -/
def breakdownEntryOf (total_expenses : ℚ) (g : CategoryGroup) : BreakdownEntry :=
  let percentage := if 0 < total_expenses then g.total_amount / total_expenses * 100 else 0
  ⟨g.category.getD "Uncategorized", g.total_amount, g.transaction_count, round2 percentage⟩

/-- The sort key relation of `breakdown.sort(key=..., reverse=True)`:
descending by `total_amount`.  Python's sort is stable; a stable sort with
respect to this total preorder is extensionally unique, and is modelled by
`List.insertionSort`, which inserts each earlier element before the later
elements it ties with. -/
def entryGE (a b : BreakdownEntry) : Prop := b.total_amount ≤ a.total_amount

instance : DecidableRel entryGE := fun a b => by
  unfold entryGE; infer_instance

instance : IsTotal BreakdownEntry entryGE :=
  ⟨fun a b => le_total b.total_amount a.total_amount⟩

instance : IsTrans BreakdownEntry entryGE :=
  ⟨fun _ _ _ hab hbc => le_trans hbc hab⟩

/-- The core of `analytics.get_category_breakdown`: sum all group totals,
transform each group, and sort descending by total amount (stable). -/
def get_category_breakdown (groups : List CategoryGroup) : List BreakdownEntry :=
  let total_expenses := (groups.map (fun g => g.total_amount)).sum
  (groups.map (breakdownEntryOf total_expenses)).insertionSort entryGE

/-- `progress_percentage` in `analytics.get_budget_progress`:
`spent / budget * 100` guarded by `budget_amount > 0`, else 0. -/
def progress_percentage (budget_amount spent_amount : ℚ) : ℚ :=
  if 0 < budget_amount then spent_amount / budget_amount * 100 else 0

/-- The status classifier of `get_budget_progress`, evaluated in source
order: `>= 100` exceeded, else `>= 80` warning, else good. -/
def budget_status (p : ℚ) : String :=
  if 100 ≤ p then "exceeded"
  else if 80 ≤ p then "warning"
  else "good"

end Analytics

/-! ## Calendar lemmas -/

namespace Cal

theorem monthLen_pos (y m : Nat) : 1 ≤ monthLen y m := by
  unfold monthLen
  split
  · split <;> omega
  · split <;> omega

theorem monthLen_12 (y : Nat) : monthLen y 12 = 31 := by
  unfold monthLen
  norm_num

theorem isLeap_iff (y : Nat) :
    isLeap y = true ↔ ((y % 4 = 0 ∧ ¬ y % 100 = 0) ∨ y % 400 = 0) := by
  unfold isLeap
  simp

set_option maxHeartbeats 1000000 in
theorem daysBeforeYear_succ_true (y : Nat) (h : 1 ≤ y) (hl : isLeap y = true) :
    daysBeforeYear (y + 1) = daysBeforeYear y + 366 := by
  have hx := (isLeap_iff y).mp hl
  unfold daysBeforeYear
  omega

set_option maxHeartbeats 1000000 in
theorem daysBeforeYear_succ_false (y : Nat) (h : 1 ≤ y) (hl : isLeap y = false) :
    daysBeforeYear (y + 1) = daysBeforeYear y + 365 := by
  have hx : ¬ ((y % 4 = 0 ∧ ¬ y % 100 = 0) ∨ y % 400 = 0) := fun hc => by
    rw [(isLeap_iff y).mpr hc] at hl; exact Bool.true_eq_false.mp hl
  push_neg at hx
  unfold daysBeforeYear
  omega

theorem daysBeforeMonth_succ (y m : Nat) (h : 1 ≤ m) :
    daysBeforeMonth y (m + 1) = daysBeforeMonth y m + monthLen y m := by
  match m, h with
  | m + 1, _ => rfl

theorem daysBeforeMonth_12_true (y : Nat) (hl : isLeap y = true) :
    daysBeforeMonth y 12 = 335 := by
  simp [daysBeforeMonth, monthLen, hl]

theorem daysBeforeMonth_12_false (y : Nat) (hl : isLeap y = false) :
    daysBeforeMonth y 12 = 334 := by
  simp [daysBeforeMonth, monthLen, hl]

theorem toRD_year1_le (d : Date) (hv : d.valid) (h1 : d.year = 1) : toRD d ≤ 365 := by
  obtain ⟨y, m, day⟩ := d
  obtain ⟨-, hm1, hm2, hd1, hd2⟩ := hv
  simp only at h1
  subst h1
  simp only [toRD, daysBeforeYear] at *
  interval_cases m <;> simp_all [daysBeforeMonth, monthLen, isLeap] <;> omega

theorem toRD_prevDay (d : Date) (hv : d.valid) (h366 : 366 ≤ toRD d) :
    (prevDay d).valid ∧ toRD (prevDay d) + 1 = toRD d := by
  have hy2 : 2 ≤ d.year := by
    by_contra hy
    have h1 : d.year = 1 := by
      have := hv.1
      omega
    have := toRD_year1_le d hv h1
    omega
  obtain ⟨y, m, day⟩ := d
  obtain ⟨hy1, hm1, hm2, hd1, hd2⟩ := hv
  simp only at hy1 hm1 hm2 hd1 hd2 hy2
  unfold prevDay
  simp only
  by_cases hd : 1 < day
  · rw [if_pos hd]
    constructor
    · unfold Date.valid
      dsimp only
      omega
    · simp only [toRD]
      omega
  · rw [if_neg hd]
    have hday1 : day = 1 := by omega
    by_cases hm : 1 < m
    · rw [if_pos hm]
      have hlen := monthLen_pos y (m - 1)
      have hstep := daysBeforeMonth_succ y (m - 1) (by omega)
      have hmm : m - 1 + 1 = m := by omega
      rw [hmm] at hstep
      constructor
      · unfold Date.valid
        dsimp only
        omega
      · simp only [toRD]
        omega
    · rw [if_neg hm]
      have hmm1 : m = 1 := by omega
      have hy1' : 1 ≤ y - 1 := by omega
      have hyy : y - 1 + 1 = y := by omega
      have h31 : monthLen (y - 1) 12 = 31 := monthLen_12 _
      constructor
      · unfold Date.valid
        dsimp only
        omega
      · simp only [toRD, hmm1, hday1]
        have hz : daysBeforeMonth y 1 = 0 := rfl
        cases hl : isLeap (y - 1)
        · have h12 := daysBeforeMonth_12_false (y - 1) hl
          have hsucc := daysBeforeYear_succ_false (y - 1) hy1' hl
          rw [hyy] at hsucc
          omega
        · have h12 := daysBeforeMonth_12_true (y - 1) hl
          have hsucc := daysBeforeYear_succ_true (y - 1) hy1' hl
          rw [hyy] at hsucc
          omega

theorem toRD_subDays (d : Date) (n : Nat) (hv : d.valid) (h : 366 + n ≤ toRD d) :
    (subDays d n).valid ∧ toRD (subDays d n) + n = toRD d := by
  induction n with
  | zero => exact ⟨hv, rfl⟩
  | succ k ih =>
    obtain ⟨hvk, hrd⟩ := ih (by omega)
    have hstep := toRD_prevDay (subDays d k) hvk (by omega)
    exact ⟨hstep.1, by simp only [subDays]; omega⟩

theorem weekday_lt_7 (d : Date) : weekday d < 7 := Nat.mod_lt _ (by norm_num)

theorem weekday_subDays_weekday (d : Date) (hv : d.valid) (h : 372 ≤ toRD d) :
    (subDays d (weekday d)).valid ∧
    weekday (subDays d (weekday d)) = 0 ∧
    toRD (subDays d (weekday d)) ≤ toRD d ∧
    toRD d ≤ toRD (subDays d (weekday d)) + 6 := by
  have hw : weekday d < 7 := weekday_lt_7 d
  obtain ⟨hvs, hrd⟩ := toRD_subDays d (weekday d) hv (by omega)
  refine ⟨hvs, ?_, by omega, by unfold weekday at *; omega⟩
  unfold weekday at *
  omega

end Cal

/-! ## Transform engine lemmas -/

namespace Transform

theorem applyRecord_eq (b : Bucket) (t : TRecord) :
    applyRecord b t = ⟨b.income + aggIncome t, b.expenses + aggExpenses t, b.count + 1⟩ := by
  unfold applyRecord aggIncome aggExpenses
  split <;> simp_all

theorem keyHits_cons (period k : String) (t : TRecord) (ts : List TRecord) :
    keyHits period k (t :: ts) =
      if recordKey period t == some k then t :: keyHits period k ts
      else keyHits period k ts := by
  unfold keyHits
  rw [List.filter_cons]

set_option linter.unnecessarySeqFocus false in
theorem aggregate_foldl_lookup (period : String) (ts : List TRecord) :
    ∀ (m : String → Option Bucket) (k : String),
      (ts.foldl (aggStep period) m) k =
        if (keyHits period k ts).isEmpty then m k
        else some ⟨((m k).getD Bucket.zero).income + ((keyHits period k ts).map aggIncome).sum,
                   ((m k).getD Bucket.zero).expenses + ((keyHits period k ts).map aggExpenses).sum,
                   ((m k).getD Bucket.zero).count + (keyHits period k ts).length⟩ := by
  induction ts with
  | nil =>
    intro m k
    simp [keyHits]
  | cons t ts ih =>
    intro m k
    rw [List.foldl_cons, keyHits_cons]
    cases hrd : recordDate t with
    | none =>
      have hstep : aggStep period m t = m := by
        unfold aggStep
        rw [hrd]
      have hrk : recordKey period t = none := by simp [recordKey, hrd]
      rw [hstep, ih, hrk]
      simp
    | some d =>
      have hstep : aggStep period m t = fun k' =>
          if k' = aggKey period d
          then some (applyRecord ((m (aggKey period d)).getD Bucket.zero) t)
          else m k' := by
        unfold aggStep
        rw [hrd]
      have hrk : recordKey period t = some (aggKey period d) := by simp [recordKey, hrd]
      rw [hstep, ih, hrk]
      by_cases hk : k = aggKey period d
      · subst hk
        simp only [beq_self_eq_true, if_true]
        rcases hhits : keyHits period (aggKey period d) ts with _ | ⟨h, hs⟩ <;>
          simp [applyRecord_eq, Bucket.mk.injEq] <;>
          refine ⟨by ring, by ring, by omega⟩
      · have hbeq : (some (aggKey period d) == some k) = false := by
          simp
          exact fun h => hk h.symm
        rw [hbeq]
        simp only [Bool.false_eq_true, if_false, if_neg hk]

theorem aggregate_buckets_lookup (period : String) (ts : List TRecord) (k : String) :
    aggregate_buckets ts period k =
      if (keyHits period k ts).isEmpty then none
      else some ⟨((keyHits period k ts).map aggIncome).sum,
                 ((keyHits period k ts).map aggExpenses).sum,
                 (keyHits period k ts).length⟩ := by
  unfold aggregate_buckets
  rw [aggregate_foldl_lookup]
  simp [Bucket.zero]

theorem sum_filter_income (ts : List TRecord) :
    ((ts.filter (fun t => t.type == some "income")).map (fun t => t.amount.getD 0)).sum =
      (ts.map incomeContrib).sum := by
  induction ts with
  | nil => rfl
  | cons t ts ih =>
    rw [List.filter_cons, List.map_cons, List.sum_cons]
    by_cases ht : t.type == some "income"
    · have ht' : t.type = some "income" := by simpa using ht
      rw [if_pos ht, List.map_cons, List.sum_cons, ih]
      simp [incomeContrib, ht']
    · have ht' : ¬ t.type = some "income" := by simpa using ht
      rw [if_neg ht, ih]
      simp [incomeContrib, ht']

theorem sum_filter_expense (ts : List TRecord) :
    ((ts.filter (fun t => t.type == some "expense")).map (fun t => t.amount.getD 0)).sum =
      (ts.map expenseContrib).sum := by
  induction ts with
  | nil => rfl
  | cons t ts ih =>
    rw [List.filter_cons, List.map_cons, List.sum_cons]
    by_cases ht : t.type == some "expense"
    · have ht' : t.type = some "expense" := by simpa using ht
      rw [if_pos ht, List.map_cons, List.sum_cons, ih]
      simp [expenseContrib, ht']
    · have ht' : ¬ t.type = some "expense" := by simpa using ht
      rw [if_neg ht, ih]
      simp [expenseContrib, ht']

end Transform

/-! ## Category breakdown lemmas -/

namespace Analytics

theorem filter_orderedInsert_total (x : BreakdownEntry) (l : List BreakdownEntry) (t : ℚ) :
    (List.orderedInsert entryGE x l).filter (fun e => e.total_amount == t) =
      if x.total_amount == t
      then x :: l.filter (fun e => e.total_amount == t)
      else l.filter (fun e => e.total_amount == t) := by
  induction l with
  | nil =>
    simp only [List.orderedInsert, List.filter_cons, List.filter_nil]
  | cons b l ih =>
    rw [List.orderedInsert]
    by_cases hr : entryGE x b
    · rw [if_pos hr, List.filter_cons, List.filter_cons]
    · rw [if_neg hr, List.filter_cons, ih, List.filter_cons]
      by_cases hx : (x.total_amount == t) = true
      · have hxt : x.total_amount = t := by simpa using hx
        have hb : (b.total_amount == t) = false := by
          simp only [beq_eq_false_iff_ne, ne_eq]
          intro hbt
          unfold entryGE at hr
          push_neg at hr
          rw [hbt, hxt] at hr
          exact lt_irrefl t hr
        simp [hx, hb]
      · simp only [Bool.not_eq_true] at hx
        simp [hx]

theorem filter_insertionSort_total (l : List BreakdownEntry) (t : ℚ) :
    (l.insertionSort entryGE).filter (fun e => e.total_amount == t) =
      l.filter (fun e => e.total_amount == t) := by
  induction l with
  | nil => rfl
  | cons x l ih =>
    rw [List.insertionSort, filter_orderedInsert_total, List.filter_cons, ih]

theorem breakdown_sorted (l : List BreakdownEntry) :
    (l.insertionSort entryGE).Pairwise entryGE :=
  List.sorted_insertionSort entryGE l

theorem breakdown_perm (l : List BreakdownEntry) :
    (l.insertionSort entryGE).Perm l :=
  List.perm_insertionSort entryGE l

theorem round2_err (q : ℚ) : |round2 q - q| ≤ 1 / 200 := by
  unfold round2
  have h := abs_sub_round (q * 100)
  rw [abs_sub_comm] at h
  have h100 : ((round (q * 100) : ℤ) : ℚ) / 100 - q = ((round (q * 100) : ℤ) - q * 100) / 100 := by
    ring
  rw [h100, abs_div]
  rw [abs_of_pos (by norm_num : (0:ℚ) < 100)]
  calc |((round (q * 100) : ℤ) : ℚ) - q * 100| / 100 ≤ (1 / 2) / 100 := by
        apply div_le_div_of_nonneg_right h (by norm_num)
    _ = 1 / 200 := by norm_num

theorem sum_map_round2_err (l : List ℚ) :
    |(l.map round2).sum - l.sum| ≤ l.length * (1 / 200) := by
  induction l with
  | nil => simp
  | cons q l ih =>
    simp only [List.map_cons, List.sum_cons, List.length_cons]
    have htri : |round2 q + (l.map round2).sum - (q + l.sum)| ≤
        |round2 q - q| + |(l.map round2).sum - l.sum| := by
      have : round2 q + (l.map round2).sum - (q + l.sum) =
          (round2 q - q) + ((l.map round2).sum - l.sum) := by ring
      rw [this]
      exact abs_add _ _
    have := round2_err q
    push_cast
    nlinarith [htri, round2_err q, ih]

theorem sum_map_div_mul (T : ℚ) (l : List ℚ) :
    (l.map (fun x => x / T * 100)).sum = l.sum / T * 100 := by
  induction l with
  | nil => simp
  | cons a l ih =>
    rw [List.map_cons, List.sum_cons, List.sum_cons, ih]
    ring

theorem sum_raw_pct (groups : List CategoryGroup)
    (h0 : (groups.map fun g => g.total_amount).sum ≠ 0) :
    (groups.map (fun g => g.total_amount / (groups.map fun g => g.total_amount).sum * 100)).sum
      = 100 := by
  have hc : (groups.map (fun g => g.total_amount / (groups.map fun g => g.total_amount).sum * 100))
      = ((groups.map fun g => g.total_amount).map
          (fun x => x / (groups.map fun g => g.total_amount).sum * 100)) := by
    rw [List.map_map]
    rfl
  rw [hc, sum_map_div_mul, div_self h0]
  norm_num

end Analytics

/-! ## Claim theorems -/

namespace Auth

/-- Claim C1.  The claim states that a valid token whose subject resolves to
a stored but inactive principal fails with a distinct Inactive condition
(the 400 "Inactive user" response), not the Unauthenticated 401 used for
invalid tokens and unknown principals.  The body of `get_current_user` does
build the distinct 400 response, but the function's trailing
`except Exception` clause catches that `HTTPException` and re-raises the 401
`credentials_exception`, so the caller observes exactly the same 401 as for
an unknown principal: the distinction the claim (and the specification)
require is erased by the blanket handler. -/
theorem c1_inactive_user_collapsed :
    (Auth.get_current_user (Auth.create_access_token "alice" none 0)
        [⟨"alice", false⟩] 10 = .error Auth.credentials_exception) ∧
    (Auth.get_current_user (Auth.create_access_token "alice" none 0)
        [] 10 = .error Auth.credentials_exception) ∧
    (Auth.get_current_user_try (Auth.create_access_token "alice" none 0)
        [⟨"alice", false⟩] 10 = .error ⟨400, "Inactive user"⟩) := by
  refine ⟨rfl, rfl, rfl⟩

/-- Claim C2, counterexample.  A token issued with ttl = 0 at instant 1000
validates successfully at the same instant 1000 and returns the subject
(the zero timedelta is falsy, so the token silently receives the default
30-minute expiry); and a token whose embedded expiry equals the current
instant also validates, although the current time is not strictly less
than the expiry.  Both contradict the claim as stated. -/
theorem c2_ttl_zero_counterexample :
    Auth.verify_token (Auth.create_access_token "alice" (some 0) 1000) 1000 = some "alice" ∧
    Auth.verify_token (Auth.Jwt.signed (some "alice") 1000 Config.secret_key "HS256") 1000
      = some "alice" ∧
    ¬ ((1000 : Int) < 1000) := by
  refine ⟨rfl, rfl, by omega⟩

theorem verify_token_signed_iff (sub : Option String) (key alg : String) (exp now : Int)
    (s : String) :
    Auth.verify_token (.signed sub exp key alg) now = some s ↔
      (sub = some s ∧ key = Config.secret_key ∧ alg = Config.algorithm ∧ now ≤ exp) := by
  simp only [Auth.verify_token, Auth.jwt_decode]
  by_cases hka : key = Config.secret_key ∧ alg = Config.algorithm
  · obtain ⟨hk, ha⟩ := hka
    subst hk; subst ha
    rw [if_pos ⟨rfl, rfl⟩]
    by_cases hexp : exp < now
    · rw [if_pos hexp]
      constructor
      · intro h; exact absurd h (by simp)
      · rintro ⟨-, -, -, h⟩; omega
    · rw [if_neg hexp]
      cases sub with
      | none =>
        constructor
        · intro h; exact absurd h (by simp)
        · rintro ⟨h, -⟩; exact absurd h (by simp)
      | some u =>
        constructor
        · intro h
          refine ⟨?_, rfl, rfl, by omega⟩
          simpa using h
        · rintro ⟨h, -, -, -⟩
          simpa using h
  · rw [if_neg hka]
    constructor
    · intro h; exact absurd h (by simp)
    · rintro ⟨-, hk, ha, -⟩; exact absurd ⟨hk, ha⟩ hka

/-- Claim C2, amended.  `verify_token` returns a subject `s` exactly when
the token is well-formed, signed with the configured secret under the
configured algorithm, carries `s` as its subject, and the current time is
at most — not strictly below — the embedded expiry (jose's expiry check
only rejects `exp < now`, so the expiry second itself still validates).
And because `create_access_token` tests its `expires_delta` for truthiness
rather than for `None`, a ttl of 0 falls back to the configured default of
30 minutes: the resulting token validates exactly up to 1800 seconds after
issuance, not never. -/
theorem c2_validation_amended :
    (∀ (t : Auth.Jwt) (now : Int) (s : String),
      Auth.verify_token t now = some s ↔
        ∃ e, t = Auth.Jwt.signed (some s) e Config.secret_key Config.algorithm ∧
          now ≤ e) ∧
    (∀ now v : Int,
      Auth.verify_token (Auth.create_access_token "alice" (some 0) now) v = some "alice" ↔
        v ≤ now + 1800) := by
  constructor
  · intro t now s
    cases t with
    | malformed =>
      simp [Auth.verify_token, Auth.jwt_decode]
    | signed sub exp key alg =>
      rw [verify_token_signed_iff]
      constructor
      · rintro ⟨rfl, rfl, rfl, h⟩; exact ⟨exp, rfl, h⟩
      · rintro ⟨e, heq, hle⟩
        injection heq with h1 h2 h3 h4
        subst h1; subst h2; subst h3; subst h4
        exact ⟨rfl, rfl, rfl, hle⟩
  · intro now v
    have hform : Auth.create_access_token "alice" (some 0) now =
        Auth.Jwt.signed (some "alice") (now + 1800) Config.secret_key Config.algorithm := by
      simp [Auth.create_access_token, Auth.timedeltaTruthy, Auth.jwt_encode,
        Config.access_token_expire_minutes]
    rw [hform, verify_token_signed_iff]
    constructor
    · rintro ⟨-, -, -, h⟩; exact h
    · intro h; exact ⟨rfl, rfl, rfl, h⟩

end Auth

namespace Analytics

/-- Claim C3.  The claim states that an unavailable rate service (non-200
upstream reply) and an unsupported target currency surface as two distinct
error conditions — 503 versus 400 — and are never collapsed into one
generic failure.  The body of `convert_currency` does raise those two
distinct `HTTPException`s, but the function's trailing `except Exception`
catches both and re-raises a generic 500 "Internal server error", so the
caller observes the identical generic failure in both situations.
(Elsewhere the repository guards such handlers with
`except HTTPException: raise`; this endpoint does not.) -/
theorem c3_upstream_errors_collapsed :
    Analytics.convert_currency 100 "USD" "EUR" ⟨503, [], none⟩
      = .error ⟨500, "Internal server error"⟩ ∧
    Analytics.convert_currency 100 "USD" "XYZ" ⟨200, [("EUR", 92/100)], some "2024-01-01"⟩
      = .error ⟨500, "Internal server error"⟩ ∧
    Analytics.convert_currency_try 100 "USD" "EUR" ⟨503, [], none⟩
      = .error ⟨503, "Currency conversion service unavailable"⟩ ∧
    Analytics.convert_currency_try 100 "USD" "XYZ" ⟨200, [("EUR", 92/100)], some "2024-01-01"⟩
      = .error ⟨400, "Currency XYZ not supported"⟩ := by
  refine ⟨rfl, rfl, rfl, rfl⟩

end Analytics

namespace Transform

/-- Claim C4, counterexample.  The claim says the week bucket key is the
ISO-year and ISO-week of the date.  December 30, 2024 is a Monday belonging
to ISO week 1 of ISO-year 2025, so the claimed key is "2025-W1"; the code
computes `f"{date.year}-W{date.isocalendar()[1]}"`, pairing the calendar
year 2024 with the ISO week number, and files the record under "2024-W1".
The bucket the claim names stays empty. -/
theorem c4_week_key_counterexample :
    Transform.parseDate "2024-12-30" = some ⟨2024, 12, 30⟩ ∧
    Transform.aggKey "week" ⟨2024, 12, 30⟩ = "2024-W1" ∧
    Transform.specWeekKey ⟨2024, 12, 30⟩ = "2025-W1" ∧
    Transform.aggregate_buckets [⟨some 10, some "expense", none, some "2024-12-30"⟩] "week"
      "2024-W1" = some ⟨0, 10, 1⟩ ∧
    Transform.aggregate_buckets [⟨some 10, some "expense", none, some "2024-12-30"⟩] "week"
      "2025-W1" = none ∧
    "2024-W1" ≠ "2025-W1" := by
  have h1 : Transform.recordKey "week" ⟨some 10, some "expense", none, some "2024-12-30"⟩
      = some "2024-W1" := by decide
  refine ⟨by decide, by decide, by decide, ?_, ?_, by decide⟩
  · rw [Transform.aggregate_buckets_lookup]
    have hh : Transform.keyHits "week" "2024-W1"
        [⟨some 10, some "expense", none, some "2024-12-30"⟩]
        = [⟨some 10, some "expense", none, some "2024-12-30"⟩] := by
      unfold Transform.keyHits
      rw [List.filter_cons, h1]
      decide
    rw [hh]
    norm_num [Transform.aggIncome, Transform.aggExpenses]
    decide
  · rw [Transform.aggregate_buckets_lookup]
    have hh : Transform.keyHits "week" "2025-W1"
        [⟨some 10, some "expense", none, some "2024-12-30"⟩] = [] := by
      unfold Transform.keyHits
      rw [List.filter_cons, h1]
      decide
    rw [hh]
    norm_num

/-- Claim C4, amended.  Every record with a parseable date is assigned the
bucket key determined solely by its date and the period tag via `aggKey`
(day → "YYYY-MM-DD", week → the record's calendar year paired with its ISO
week number, month → "YYYY-MM", year → "YYYY"): the bucket at key `k`
exists exactly when some record keys to `k`, and then aggregates exactly
those records (income sum, expenses sum and count over `keyHits`).  Every
record with a missing or unparseable date is silently skipped: deleting it
from the input leaves the entire result unchanged. -/
theorem c4_aggregate_amended :
    ∀ (period : String) (ts : List Transform.TRecord) (k : String),
      (Transform.aggregate_buckets ts period k =
        if (Transform.keyHits period k ts).isEmpty then none
        else some ⟨((Transform.keyHits period k ts).map Transform.aggIncome).sum,
                   ((Transform.keyHits period k ts).map Transform.aggExpenses).sum,
                   (Transform.keyHits period k ts).length⟩) ∧
      (∀ (pre post : List Transform.TRecord) (r : Transform.TRecord),
        Transform.recordDate r = none →
          Transform.aggregate_buckets (pre ++ r :: post) period =
            Transform.aggregate_buckets (pre ++ post) period) := by
  intro period ts k
  refine ⟨Transform.aggregate_buckets_lookup period ts k, ?_⟩
  intro pre post r hr
  unfold Transform.aggregate_buckets
  rw [List.foldl_append, List.foldl_append, List.foldl_cons]
  have hstep : ∀ m, Transform.aggStep period m r = m := by
    intro m
    unfold Transform.aggStep
    rw [hr]
  rw [hstep]

/-- Witness for the amended claim C4 at concrete inputs: an empty input has
no "2024-01" bucket; a dateless record together with a record dated
2024-01-05 under period `month` produces the "2024-01" bucket holding only
the dated record. -/
theorem c4_aggregate_amended_witness :
    Transform.aggregate_buckets [] "month" "2024-01" = none ∧
    Transform.aggregate_buckets
      [⟨some 3, none, none, none⟩, ⟨some 4, some "expense", none, some "2024-01-05"⟩]
      "month" "2024-01" = some ⟨0, 4, 1⟩ := by
  constructor
  · have h := (c4_aggregate_amended "month" [] "2024-01").1
    simpa [Transform.keyHits] using h
  · have h := (c4_aggregate_amended "month"
      [⟨some 3, none, none, none⟩, ⟨some 4, some "expense", none, some "2024-01-05"⟩]
      "2024-01").1
    have hh : Transform.keyHits "month" "2024-01"
        [⟨some 3, none, none, none⟩, ⟨some 4, some "expense", none, some "2024-01-05"⟩]
        = [⟨some 4, some "expense", none, some "2024-01-05"⟩] := by
      unfold Transform.keyHits
      decide
    rw [hh] at h
    rw [h]
    norm_num [Transform.aggIncome, Transform.aggExpenses]
    decide

/-- Claim C10.  In `transform_aggregate`, a record with a parseable date
but no `type` field is treated as an expense: appending it to any input
adds its amount (0 when missing) to its bucket's `expenses` total, leaves
`income` unchanged, and increments the bucket's count — the record is
counted, not excluded.  By contrast, in `transform_summarize` the same
typeless record contributes 0 to both the income and the expense total. -/
theorem c10_typeless_as_expense :
    ∀ (period : String) (ts : List Transform.TRecord) (r : Transform.TRecord) (d : Cal.Date),
      Transform.recordDate r = some d → r.type = none →
      (∃ b' : Transform.Bucket,
        Transform.aggregate_buckets (ts ++ [r]) period (Transform.aggKey period d) = some b' ∧
        b'.expenses = ((Transform.aggregate_buckets ts period
            (Transform.aggKey period d)).getD Transform.Bucket.zero).expenses
            + r.amount.getD 0 ∧
        b'.income = ((Transform.aggregate_buckets ts period
            (Transform.aggKey period d)).getD Transform.Bucket.zero).income ∧
        b'.count = ((Transform.aggregate_buckets ts period
            (Transform.aggKey period d)).getD Transform.Bucket.zero).count + 1) ∧
      Transform.incomeContrib r = 0 ∧ Transform.expenseContrib r = 0 := by
  intro period ts r d hrd htype
  have hexp : r.type.getD "expense" = "expense" := by rw [htype]; rfl
  have happ : ∀ b : Transform.Bucket, Transform.applyRecord b r =
      ⟨b.income, b.expenses + r.amount.getD 0, b.count + 1⟩ := by
    intro b
    unfold Transform.applyRecord
    rw [if_neg (by rw [hexp]; decide)]
  constructor
  · refine ⟨Transform.applyRecord ((Transform.aggregate_buckets ts period
        (Transform.aggKey period d)).getD Transform.Bucket.zero) r, ?_, ?_, ?_, ?_⟩
    · unfold Transform.aggregate_buckets
      rw [List.foldl_append, List.foldl_cons, List.foldl_nil]
      have hstep : Transform.aggStep period
          (ts.foldl (Transform.aggStep period) (fun _ => none)) r = fun k' =>
            if k' = Transform.aggKey period d
            then some (Transform.applyRecord
              (((ts.foldl (Transform.aggStep period) (fun _ => none))
                (Transform.aggKey period d)).getD Transform.Bucket.zero) r)
            else (ts.foldl (Transform.aggStep period) (fun _ => none)) k' := by
        unfold Transform.aggStep
        rw [hrd]
      rw [hstep]
      simp only [if_pos rfl]
      rfl
    · rw [happ]
    · rw [happ]
    · rw [happ]
  · constructor
    · unfold Transform.incomeContrib
      rw [if_neg (by rw [htype]; decide)]
    · unfold Transform.expenseContrib
      rw [if_neg (by rw [htype]; decide)]

/-- Witness for claim C10: the typeless record dated 2024-01-05 with
amount 5, aggregated alone under period `month`, lands in bucket "2024-01"
with expenses 5, income 0 and count 1, while contributing 0 to both of
`transform_summarize`'s totals. -/
theorem c10_typeless_as_expense_witness :
    Transform.recordDate ⟨some 5, none, none, some "2024-01-05"⟩ = some ⟨2024, 1, 5⟩ ∧
    (⟨some 5, none, none, some "2024-01-05"⟩ : Transform.TRecord).type = none ∧
    (∃ b' : Transform.Bucket,
      Transform.aggregate_buckets ([] ++ [⟨some 5, none, none, some "2024-01-05"⟩])
        "month" (Transform.aggKey "month" ⟨2024, 1, 5⟩) = some b' ∧
      b'.expenses = ((Transform.aggregate_buckets [] "month"
          (Transform.aggKey "month" ⟨2024, 1, 5⟩)).getD Transform.Bucket.zero).expenses
          + (⟨some 5, none, none, some "2024-01-05"⟩ : Transform.TRecord).amount.getD 0 ∧
      b'.income = ((Transform.aggregate_buckets [] "month"
          (Transform.aggKey "month" ⟨2024, 1, 5⟩)).getD Transform.Bucket.zero).income ∧
      b'.count = ((Transform.aggregate_buckets [] "month"
          (Transform.aggKey "month" ⟨2024, 1, 5⟩)).getD Transform.Bucket.zero).count + 1) ∧
    Transform.incomeContrib ⟨some 5, none, none, some "2024-01-05"⟩ = 0 ∧
    Transform.expenseContrib ⟨some 5, none, none, some "2024-01-05"⟩ = 0 := by
  have h := c10_typeless_as_expense "month" [] ⟨some 5, none, none, some "2024-01-05"⟩
    ⟨2024, 1, 5⟩ (by decide) rfl
  exact ⟨by decide, rfl, h.1, h.2.1, h.2.2⟩

end Transform

namespace Analytics

/-- Claim C5.  Budget progress is `spent / target * 100` whenever the
target is positive and 0 whenever the target is non-positive, and the
status classifier — evaluated in source order — returns "exceeded" exactly
on progress ≥ 100, "warning" exactly on 80 ≤ progress < 100, and "good"
exactly on progress < 80. -/
theorem c5_budget_progress :
    ∀ (target spent : ℚ),
      (target ≤ 0 → Analytics.progress_percentage target spent = 0) ∧
      (0 < target → Analytics.progress_percentage target spent = spent / target * 100) ∧
      (Analytics.budget_status (Analytics.progress_percentage target spent) = "exceeded" ↔
        100 ≤ Analytics.progress_percentage target spent) ∧
      (Analytics.budget_status (Analytics.progress_percentage target spent) = "warning" ↔
        80 ≤ Analytics.progress_percentage target spent ∧
          Analytics.progress_percentage target spent < 100) ∧
      (Analytics.budget_status (Analytics.progress_percentage target spent) = "good" ↔
        Analytics.progress_percentage target spent < 80) := by
  intro target spent
  set p := Analytics.progress_percentage target spent with hp
  have hne1 : ("warning" : String) ≠ "exceeded" := by decide
  have hne2 : ("good" : String) ≠ "exceeded" := by decide
  have hne3 : ("exceeded" : String) ≠ "warning" := by decide
  have hne4 : ("good" : String) ≠ "warning" := by decide
  have hne5 : ("exceeded" : String) ≠ "good" := by decide
  have hne6 : ("warning" : String) ≠ "good" := by decide
  refine ⟨?_, ?_, ?_, ?_, ?_⟩
  · intro h
    rw [hp]
    unfold Analytics.progress_percentage
    rw [if_neg (not_lt.mpr h)]
  · intro h
    rw [hp]
    unfold Analytics.progress_percentage
    rw [if_pos h]
  · unfold Analytics.budget_status
    by_cases h1 : 100 ≤ p
    · rw [if_pos h1]
      exact ⟨fun _ => h1, fun _ => rfl⟩
    · rw [if_neg h1]
      constructor
      · intro hc
        split at hc
        · exact absurd hc hne1
        · exact absurd hc hne2
      · intro hc
        exact absurd hc h1
  · unfold Analytics.budget_status
    by_cases h1 : 100 ≤ p
    · rw [if_pos h1]
      exact ⟨fun hc => absurd hc hne3, fun hc => absurd hc.2 (not_lt.mpr h1)⟩
    · rw [if_neg h1]
      by_cases h2 : 80 ≤ p
      · rw [if_pos h2]
        exact ⟨fun _ => ⟨h2, not_le.mp h1⟩, fun _ => rfl⟩
      · rw [if_neg h2]
        exact ⟨fun hc => absurd hc hne4, fun hc => absurd hc.1 h2⟩
  · unfold Analytics.budget_status
    by_cases h1 : 100 ≤ p
    · rw [if_pos h1]
      refine ⟨fun hc => absurd hc hne5,
        fun hc => absurd (lt_of_lt_of_le (by norm_num) h1) (not_lt.mpr (le_of_lt hc))⟩
    · rw [if_neg h1]
      by_cases h2 : 80 ≤ p
      · rw [if_pos h2]
        exact ⟨fun hc => absurd hc hne6, fun hc => absurd hc (not_lt.mpr h2)⟩
      · rw [if_neg h2]
        exact ⟨fun _ => not_le.mp h2, fun _ => rfl⟩

/-- Witness for claim C5 at the specification's four test points:
target 100 with spent 100, 85 and 50 give progress 100 ("exceeded"),
85 ("warning") and 50 ("good"); target 0 gives progress 0 and "good". -/
theorem c5_budget_progress_witness :
    Analytics.progress_percentage 100 100 = 100 ∧
    Analytics.budget_status (Analytics.progress_percentage 100 100) = "exceeded" ∧
    Analytics.progress_percentage 100 85 = 85 ∧
    Analytics.budget_status (Analytics.progress_percentage 100 85) = "warning" ∧
    Analytics.progress_percentage 100 50 = 50 ∧
    Analytics.budget_status (Analytics.progress_percentage 100 50) = "good" ∧
    Analytics.progress_percentage 0 40 = 0 ∧
    Analytics.budget_status (Analytics.progress_percentage 0 40) = "good" := by
  have e100 : Analytics.progress_percentage 100 100 = 100 := by
    rw [(c5_budget_progress 100 100).2.1 (by norm_num)]
    norm_num
  have e85 : Analytics.progress_percentage 100 85 = 85 := by
    rw [(c5_budget_progress 100 85).2.1 (by norm_num)]
    norm_num
  have e50 : Analytics.progress_percentage 100 50 = 50 := by
    rw [(c5_budget_progress 100 50).2.1 (by norm_num)]
    norm_num
  have e0 : Analytics.progress_percentage 0 40 = 0 :=
    (c5_budget_progress 0 40).1 (by norm_num)
  refine ⟨e100, ?_, e85, ?_, e50, ?_, e0, ?_⟩
  · exact ((c5_budget_progress 100 100).2.2.1).mpr (by rw [e100])
  · exact ((c5_budget_progress 100 85).2.2.2.1).mpr (by rw [e85]; norm_num)
  · exact ((c5_budget_progress 100 50).2.2.2.2).mpr (by rw [e50]; norm_num)
  · exact ((c5_budget_progress 0 40).2.2.2.2).mpr (by rw [e0]; norm_num)

end Analytics

namespace Analytics

/-- Claim C6.  For category groups with non-negative totals (amounts of
stored transactions are positive under the data model), the breakdown (1)
is a permutation of the transformed groups, (2) assigns each group the
percentage `group total / grand total * 100` — 0 when the grand total is 0,
never dividing by zero — rounded to 2 decimals only after the quotient is
computed, (3) is ordered descending by total amount, and (4) is stable:
entries sharing a total amount keep their encounter order. -/
theorem c6_category_breakdown :
    ∀ (groups : List Analytics.CategoryGroup),
      (∀ g ∈ groups, 0 ≤ g.total_amount) →
      (Analytics.get_category_breakdown groups).Perm
        (groups.map (Analytics.breakdownEntryOf ((groups.map fun g => g.total_amount).sum))) ∧
      (∀ g ∈ groups,
        (Analytics.breakdownEntryOf ((groups.map fun g => g.total_amount).sum) g).percentage =
          Analytics.round2
            (if (groups.map fun g => g.total_amount).sum = 0 then 0
             else g.total_amount / (groups.map fun g => g.total_amount).sum * 100)) ∧
      (Analytics.get_category_breakdown groups).Pairwise
        (fun a b => b.total_amount ≤ a.total_amount) ∧
      (∀ t : ℚ,
        (Analytics.get_category_breakdown groups).filter (fun e => e.total_amount == t) =
          (groups.map (Analytics.breakdownEntryOf
            ((groups.map fun g => g.total_amount).sum))).filter
              (fun e => e.total_amount == t)) := by
  intro groups h
  have hT0 : 0 ≤ (groups.map fun g => g.total_amount).sum := by
    apply List.sum_nonneg
    intro x hx
    obtain ⟨g, hg, rfl⟩ := List.mem_map.mp hx
    exact h g hg
  refine ⟨Analytics.breakdown_perm _, ?_, Analytics.breakdown_sorted _, ?_⟩
  · intro g hg
    unfold Analytics.breakdownEntryOf
    by_cases hT : (groups.map fun g => g.total_amount).sum = 0
    · rw [if_pos hT, if_neg (by rw [hT]; exact lt_irrefl 0)]
    · rw [if_neg hT, if_pos (lt_of_le_of_ne hT0 (Ne.symm hT))]
  · intro t
    exact Analytics.filter_insertionSort_total _ t

/-- Witness for claim C6: groups Food 50, uncategorized 30, Fun 20 (grand
total 100) produce, already sorted descending, entries with percentages 50,
30 and 20 and the null category folded into "Uncategorized". -/
theorem c6_category_breakdown_witness :
    (∀ g ∈ ([⟨some "Food", 50, 2⟩, ⟨none, 30, 1⟩, ⟨some "Fun", 20, 1⟩] :
        List Analytics.CategoryGroup), 0 ≤ g.total_amount) ∧
    Analytics.get_category_breakdown
        [⟨some "Food", 50, 2⟩, ⟨none, 30, 1⟩, ⟨some "Fun", 20, 1⟩] =
      [⟨"Food", 50, 2, 50⟩, ⟨"Uncategorized", 30, 1, 30⟩, ⟨"Fun", 20, 1, 20⟩] ∧
    (Analytics.get_category_breakdown
        [⟨some "Food", 50, 2⟩, ⟨none, 30, 1⟩, ⟨some "Fun", 20, 1⟩]).Pairwise
      (fun a b => b.total_amount ≤ a.total_amount) := by
  have hnn : ∀ g ∈ ([⟨some "Food", 50, 2⟩, ⟨none, 30, 1⟩, ⟨some "Fun", 20, 1⟩] :
      List Analytics.CategoryGroup), 0 ≤ g.total_amount := by
    intro g hg
    fin_cases hg <;> norm_num
  have hsum : (([⟨some "Food", 50, 2⟩, ⟨none, 30, 1⟩, ⟨some "Fun", 20, 1⟩] :
      List Analytics.CategoryGroup).map fun g => g.total_amount).sum = 100 := by
    simp [List.sum_cons]
    norm_num
  have he1 : Analytics.breakdownEntryOf 100 ⟨some "Food", 50, 2⟩ = ⟨"Food", 50, 2, 50⟩ := by
    unfold Analytics.breakdownEntryOf Analytics.round2
    norm_num [round_eq]
  have he2 : Analytics.breakdownEntryOf 100 ⟨none, 30, 1⟩ = ⟨"Uncategorized", 30, 1, 30⟩ := by
    unfold Analytics.breakdownEntryOf Analytics.round2
    norm_num [round_eq]
  have he3 : Analytics.breakdownEntryOf 100 ⟨some "Fun", 20, 1⟩ = ⟨"Fun", 20, 1, 20⟩ := by
    unfold Analytics.breakdownEntryOf Analytics.round2
    norm_num [round_eq]
  refine ⟨hnn, ?_, (c6_category_breakdown _ hnn).2.2.1⟩
  unfold Analytics.get_category_breakdown
  rw [hsum]
  dsimp only
  rw [List.map_cons, List.map_cons, List.map_cons, List.map_nil, he1, he2, he3]
  decide

/-- Claim C7.  Over a non-empty group set with non-negative totals and a
non-zero grand total, the percentages reported by the breakdown sum to 100
within the accumulated rounding tolerance of 0.01 per entry. -/
theorem c7_percentage_sum :
    ∀ (groups : List Analytics.CategoryGroup),
      groups ≠ [] →
      (∀ g ∈ groups, 0 ≤ g.total_amount) →
      (groups.map fun g => g.total_amount).sum ≠ 0 →
      |((Analytics.get_category_breakdown groups).map (fun e => e.percentage)).sum - 100|
        ≤ groups.length * (1 / 100) := by
  intro groups hne h hT
  have hT0 : 0 ≤ (groups.map fun g => g.total_amount).sum := by
    apply List.sum_nonneg
    intro x hx
    obtain ⟨g, hg, rfl⟩ := List.mem_map.mp hx
    exact h g hg
  have hTpos : 0 < (groups.map fun g => g.total_amount).sum :=
    lt_of_le_of_ne hT0 (Ne.symm hT)
  have hperm : ((Analytics.get_category_breakdown groups).map (fun e => e.percentage)).sum =
      ((groups.map (Analytics.breakdownEntryOf
        ((groups.map fun g => g.total_amount).sum))).map (fun e => e.percentage)).sum :=
    ((Analytics.breakdown_perm _).map _).sum_eq
  have hmap : (groups.map (Analytics.breakdownEntryOf
        ((groups.map fun g => g.total_amount).sum))).map (fun e => e.percentage) =
      (groups.map (fun g =>
        g.total_amount / (groups.map fun g => g.total_amount).sum * 100)).map
          Analytics.round2 := by
    rw [List.map_map, List.map_map]
    apply List.map_congr_left
    intro g hg
    simp only [Function.comp]
    unfold Analytics.breakdownEntryOf
    rw [if_pos hTpos]
  have herr := Analytics.sum_map_round2_err
    (groups.map (fun g => g.total_amount / (groups.map fun g => g.total_amount).sum * 100))
  rw [Analytics.sum_raw_pct groups hT, List.length_map] at herr
  rw [hperm, hmap]
  calc |((groups.map (fun g =>
        g.total_amount / (groups.map fun g => g.total_amount).sum * 100)).map
          Analytics.round2).sum - 100|
      ≤ groups.length * (1 / 200) := herr
    _ ≤ groups.length * (1 / 100) := by
        apply mul_le_mul_of_nonneg_left (by norm_num) (by positivity)

/-- Witness for claim C7 at the three-group input with grand total 100. -/
theorem c7_percentage_sum_witness :
    (([⟨some "Food", 50, 2⟩, ⟨none, 30, 1⟩, ⟨some "Fun", 20, 1⟩] :
        List Analytics.CategoryGroup) ≠ []) ∧
    (∀ g ∈ ([⟨some "Food", 50, 2⟩, ⟨none, 30, 1⟩, ⟨some "Fun", 20, 1⟩] :
        List Analytics.CategoryGroup), 0 ≤ g.total_amount) ∧
    ((([⟨some "Food", 50, 2⟩, ⟨none, 30, 1⟩, ⟨some "Fun", 20, 1⟩] :
        List Analytics.CategoryGroup).map fun g => g.total_amount).sum ≠ 0) ∧
    |((Analytics.get_category_breakdown
        [⟨some "Food", 50, 2⟩, ⟨none, 30, 1⟩, ⟨some "Fun", 20, 1⟩]).map
          (fun e => e.percentage)).sum - 100|
      ≤ ([⟨some "Food", 50, 2⟩, ⟨none, 30, 1⟩, ⟨some "Fun", 20, 1⟩] :
          List Analytics.CategoryGroup).length * (1 / 100) := by
  have h1 : (([⟨some "Food", 50, 2⟩, ⟨none, 30, 1⟩, ⟨some "Fun", 20, 1⟩] :
      List Analytics.CategoryGroup) ≠ []) := by simp
  have h2 : ∀ g ∈ ([⟨some "Food", 50, 2⟩, ⟨none, 30, 1⟩, ⟨some "Fun", 20, 1⟩] :
      List Analytics.CategoryGroup), 0 ≤ g.total_amount := by
    intro g hg
    fin_cases hg <;> norm_num
  have h3 : ((([⟨some "Food", 50, 2⟩, ⟨none, 30, 1⟩, ⟨some "Fun", 20, 1⟩] :
      List Analytics.CategoryGroup).map fun g => g.total_amount).sum ≠ 0) := by
    simp [List.sum_cons]
    norm_num
  exact ⟨h1, h2, h3, c7_percentage_sum _ h1 h2 h3⟩

end Analytics

namespace Transform

/-- Claim C8.  `transform_summarize` returns the record count, income and
expense totals equal to the per-record contribution sums — a record missing
`amount` contributes 0 and a record missing `type` contributes to neither
total — net = income − expense, and average = (income + expense) / count
with 0 for the empty list; the empty list yields count 0, totals 0 and
average 0 with no division-by-zero fault, and a missing `"transactions"`
key is a structured input error rather than a crash. -/
theorem c8_summarize :
    ∀ (ts : List Transform.TRecord),
      Transform.transform_summarize (some ts) =
        .ok ⟨ts.length, (ts.map Transform.incomeContrib).sum,
             (ts.map Transform.expenseContrib).sum,
             (ts.map Transform.incomeContrib).sum - (ts.map Transform.expenseContrib).sum,
             if ts.isEmpty then 0
             else ((ts.map Transform.incomeContrib).sum +
               (ts.map Transform.expenseContrib).sum) / (ts.length : ℚ)⟩ ∧
      (∀ t : Transform.TRecord, t.type = none →
        Transform.incomeContrib t = 0 ∧ Transform.expenseContrib t = 0) ∧
      (∀ t : Transform.TRecord, t.amount = none →
        Transform.incomeContrib t = 0 ∧ Transform.expenseContrib t = 0) ∧
      Transform.transform_summarize (some []) = .ok ⟨0, 0, 0, 0, 0⟩ ∧
      Transform.transform_summarize none = .error "No transactions data provided" := by
  intro ts
  have hi := Transform.sum_filter_income ts
  have he := Transform.sum_filter_expense ts
  refine ⟨?_, ?_, ?_, ?_, rfl⟩
  · simp only [Transform.transform_summarize, hi, he]
  · intro t ht
    constructor
    · unfold Transform.incomeContrib
      rw [if_neg (by rw [ht]; exact fun hc => Option.noConfusion hc)]
    · unfold Transform.expenseContrib
      rw [if_neg (by rw [ht]; exact fun hc => Option.noConfusion hc)]
  · intro t ht
    constructor
    · unfold Transform.incomeContrib
      split
      · rw [ht]; rfl
      · rfl
    · unfold Transform.expenseContrib
      split
      · rw [ht]; rfl
      · rfl
  · unfold Transform.transform_summarize
    norm_num

/-- Witness for claim C8: an income of 100, an expense of 50, an income
record with no amount, and an amount-7 record with no type summarize to
count 4, income 100, expenses 50, net 50 and average 150 / 4 = 75 / 2. -/
theorem c8_summarize_witness :
    Transform.transform_summarize (some
      [⟨some 100, some "income", none, none⟩, ⟨some 50, some "expense", none, none⟩,
        ⟨none, some "income", none, none⟩, ⟨some 7, none, none, none⟩]) =
      .ok ⟨4, 100, 50, 50, 75 / 2⟩ ∧
    Transform.incomeContrib ⟨some 7, none, none, none⟩ = 0 ∧
    Transform.expenseContrib ⟨some 7, none, none, none⟩ = 0 ∧
    Transform.incomeContrib ⟨none, some "income", none, none⟩ = 0 := by
  have happ := (c8_summarize [⟨some 100, some "income", none, none⟩,
    ⟨some 50, some "expense", none, none⟩, ⟨none, some "income", none, none⟩,
    ⟨some 7, none, none, none⟩]).1
  have hnone := (c8_summarize []).2.1 ⟨some 7, none, none, none⟩ rfl
  have hamt := (c8_summarize []).2.2.1 ⟨none, some "income", none, none⟩ rfl
  refine ⟨?_, hnone.1, hnone.2, hamt.1⟩
  rw [happ]
  simp only [Transform.incomeContrib, Transform.expenseContrib, List.map_cons, List.map_nil,
    List.sum_cons, List.sum_nil, List.length_cons, List.length_nil, List.isEmpty_cons]
  simp
  norm_num

end Transform

namespace Cal

/-- Claim C9.  The period window start computed by the analytics and
external routers is a pure function of the period tag and the reference
instant: `day` maps to midnight of the current date, `week` to midnight of
a valid date that is a Monday (weekday 0) at most 6 days on or before the
current date, `month` to midnight of the 1st of the current month, and
`year` to midnight of January 1 of the current year.  (The hypothesis
`372 ≤ toRD` keeps the week subtraction inside the proleptic calendar's
year ≥ 1 domain, exactly as `datetime` itself requires.) -/
theorem c9_period_window :
    ∀ (now : Cal.DateTime), now.date.valid → 372 ≤ Cal.toRD now.date →
      Cal.start_date_for_period "day" now = Cal.midnight now.date ∧
      ((Cal.start_date_for_period "week" now).date.valid ∧
        Cal.weekday (Cal.start_date_for_period "week" now).date = 0 ∧
        Cal.toRD (Cal.start_date_for_period "week" now).date ≤ Cal.toRD now.date ∧
        Cal.toRD now.date ≤ Cal.toRD (Cal.start_date_for_period "week" now).date + 6 ∧
        (Cal.start_date_for_period "week" now).hour = 0 ∧
        (Cal.start_date_for_period "week" now).minute = 0 ∧
        (Cal.start_date_for_period "week" now).second = 0 ∧
        (Cal.start_date_for_period "week" now).microsecond = 0) ∧
      Cal.start_date_for_period "month" now = Cal.midnight ⟨now.date.year, now.date.month, 1⟩ ∧
      Cal.start_date_for_period "year" now = Cal.midnight ⟨now.date.year, 1, 1⟩ := by
  intro now hv h372
  have hweek : Cal.start_date_for_period "week" now =
      Cal.midnight (Cal.subDays now.date (Cal.weekday now.date)) := rfl
  obtain ⟨h1, h2, h3, h4⟩ := Cal.weekday_subDays_weekday now.date hv h372
  refine ⟨rfl, ?_, rfl, rfl⟩
  rw [hweek]
  exact ⟨h1, h2, h3, h4, rfl, rfl, rfl, rfl⟩

/-- Witness for claim C9 at Wednesday, May 15, 2024, 13:45:30.000123: the
week window starts at midnight of Monday, May 13, and the month window at
midnight of May 1. -/
theorem c9_period_window_witness :
    (⟨⟨2024, 5, 15⟩, 13, 45, 30, 123⟩ : Cal.DateTime).date.valid ∧
    372 ≤ Cal.toRD (⟨⟨2024, 5, 15⟩, 13, 45, 30, 123⟩ : Cal.DateTime).date ∧
    Cal.start_date_for_period "week" ⟨⟨2024, 5, 15⟩, 13, 45, 30, 123⟩
      = ⟨⟨2024, 5, 13⟩, 0, 0, 0, 0⟩ ∧
    Cal.weekday (Cal.start_date_for_period "week" ⟨⟨2024, 5, 15⟩, 13, 45, 30, 123⟩).date = 0 ∧
    Cal.start_date_for_period "month" ⟨⟨2024, 5, 15⟩, 13, 45, 30, 123⟩
      = ⟨⟨2024, 5, 1⟩, 0, 0, 0, 0⟩ := by
  refine ⟨by decide, by decide, by decide, ?_, ?_⟩
  · exact (c9_period_window ⟨⟨2024, 5, 15⟩, 13, 45, 30, 123⟩ (by decide) (by decide)).2.1.2.1
  · exact (c9_period_window ⟨⟨2024, 5, 15⟩, 13, 45, 30, 123⟩ (by decide) (by decide)).2.2.1

end Cal
